import Mathlib

/-!
Verification of the clox expression-compiler front end: a shallow embedding
of `src/compiler.c`, `src/object.c` and `src/value.h`, with theorems about
the claims of the specification.

Modelling conventions:
- C machine integers are `Nat` with an explicit `% 2 ^ 32` where `uint32_t`
  overflow matters (the FNV-1a hash).
- The `double` payload of a number Value is modelled as `Rat`; the claims
  only involve small integer literals, which IEEE-754 doubles represent
  exactly, and no floating-point rounding is exercised.
- Bytes are `Nat` (the concrete values are always below 256 where it matters).
- Mutable global state (`parser`, `compilingChunk`, `vm.objects`, `vm.strings`)
  becomes explicit state records threaded through the functions.
- Recursion in the Pratt parser is made total with an explicit fuel argument;
  all concrete runs in this file use ample fuel.
-/

namespace Clox

/-! ## Value representation (`src/value.h`) -/

/-- The `ValueType` enum from `value.h` (lines 6-10): exactly the three
tags `VAL_BOOL`, `VAL_NIL`, `VAL_NUMBER`. -/
inductive ValueType where
  | VAL_BOOL
  | VAL_NIL
  | VAL_NUMBER
  deriving DecidableEq, Repr

/-- The `Value` tagged union from `value.h` (lines 12-18): a `ValueType`
tag plus a payload union of `bool boolean` and `double number`. A C tagged
union in which only the field matching the tag is valid is embedded as an
inductive with one constructor per tag, each carrying that tag's payload. -/
inductive Value where
  | VBool (boolean : Bool)
  | VNil
  | VNumber (number : Rat)
  deriving DecidableEq, Repr

/-- The tag of a `Value` (the `type` field of the C struct). -/
def Value.type : Value → ValueType
  | .VBool _ => .VAL_BOOL
  | .VNil => .VAL_NIL
  | .VNumber _ => .VAL_NUMBER

/-- The `BOOL_VAL` constructor macro from `value.h`. -/
def BOOL_VAL (b : Bool) : Value := .VBool b

/-- The `NIL_VAL` constructor macro from `value.h`. -/
def NIL_VAL : Value := .VNil

/-- The `NUMBER_VAL` constructor macro from `value.h`. -/
def NUMBER_VAL (x : Rat) : Value := .VNumber x

/-! ## Tokens and the scanner interface -/

/-- Modelled from the spec: the scanner's `TokenType` enum (`scanner.h` is
not part of the given sources). The constructor order matches the row order
of the `rules` table in `compiler.c` lines 148-189, whose per-row comments
name each token type. -/
inductive TokenType where
  | TOKEN_LEFT_PAREN
  | TOKEN_RIGHT_PAREN
  | TOKEN_LEFT_BRACE
  | TOKEN_RIGHT_BRACE
  | TOKEN_COMMA
  | TOKEN_DOT
  | TOKEN_MINUS
  | TOKEN_PLUS
  | TOKEN_SEMICOLON
  | TOKEN_SLASH
  | TOKEN_STAR
  | TOKEN_BANG
  | TOKEN_BANG_EQUAL
  | TOKEN_EQUAL
  | TOKEN_EQUAL_EQUAL
  | TOKEN_GREATER
  | TOKEN_GREATER_EQUAL
  | TOKEN_LESS
  | TOKEN_LESS_EQUAL
  | TOKEN_IDENTIFIER
  | TOKEN_STRING
  | TOKEN_NUMBER
  | TOKEN_AND
  | TOKEN_CLASS
  | TOKEN_ELSE
  | TOKEN_FALSE
  | TOKEN_FOR
  | TOKEN_FUN
  | TOKEN_IF
  | TOKEN_NIL
  | TOKEN_OR
  | TOKEN_PRINT
  | TOKEN_RETURN
  | TOKEN_SUPER
  | TOKEN_THIS
  | TOKEN_TRUE
  | TOKEN_VAR
  | TOKEN_WHILE
  | TOKEN_ERROR
  | TOKEN_EOF
  deriving DecidableEq, Repr

/-- Modelled from the spec: a scanner `Token` (`scanner.h` is not in the
given sources): type, lexeme (the borrowed source slice, held here as the
sliced text), and line. -/
structure Token where
  type : TokenType
  lexeme : String
  line : Nat
  deriving DecidableEq, Repr

/-- The token the scanner yields at (and beyond) end of input. -/
def eofToken : Token := { type := .TOKEN_EOF, lexeme := "", line := 0 }

/-- The all-zero `Token` of the zero-initialized global `Parser parser;` in
`compiler.c` line 20: a C global is zero-initialized, and enum value 0 is
`TOKEN_LEFT_PAREN`. Both fields of the initial parser hold this token; it
is overwritten before being inspected on every path the claims exercise. -/
def zeroToken : Token := { type := .TOKEN_LEFT_PAREN, lexeme := "", line := 0 }

/-- Modelled from the spec: `scanToken()` (the scanner is an external
collaborator). The pending token stream is a list; an exhausted scanner
yields `TOKEN_EOF` forever. -/
def scanTok (tokens : List Token) : Token × List Token :=
  match tokens with
  | [] => (eofToken, [])
  | t :: rest => (t, rest)

/-! ## Parser state and compiler state -/

/-- The `Parser` struct from `compiler.c` lines 13-18. -/
structure Parser where
  previous : Token
  current : Token
  hadError : Bool
  panicMode : Bool
  deriving DecidableEq, Repr

/-- The zero-initialized global `Parser parser;` (`compiler.c` line 20)
as it stands at process start. -/
def initialParser : Parser :=
  { previous := zeroToken, current := zeroToken, hadError := false, panicMode := false }

/-- Modelled from the spec: the chunk module (`chunk.h`/`chunk.c` are not in
the given sources). A chunk holds the emitted code bytes, one source line
per byte, and the constant pool (an append-only `ValueArray`). -/
structure Chunk where
  code : List Nat
  lines : List Nat
  constants : List Value
  deriving DecidableEq, Repr

/-- An empty chunk, as handed to `compile` by its caller. -/
def emptyChunk : Chunk := { code := [], lines := [], constants := [] }

/-- Modelled from the spec: the opcode set consumed from the chunk module.
The concrete byte values are not given by the sources in `src/`; they are
chosen distinct, which is all the claims depend on. -/
def OP_CONSTANT : Nat := 0

/-- Modelled from the spec: see `OP_CONSTANT`. -/
def OP_NIL : Nat := 1

/-- Modelled from the spec: see `OP_CONSTANT`. -/
def OP_TRUE : Nat := 2

/-- Modelled from the spec: see `OP_CONSTANT`. -/
def OP_FALSE : Nat := 3

/-- Modelled from the spec: see `OP_CONSTANT`. -/
def OP_ADD : Nat := 4

/-- Modelled from the spec: see `OP_CONSTANT`. -/
def OP_SUB : Nat := 5

/-- Modelled from the spec: see `OP_CONSTANT`. -/
def OP_MULT : Nat := 6

/-- Modelled from the spec: see `OP_CONSTANT`. -/
def OP_DIV : Nat := 7

/-- Modelled from the spec: see `OP_CONSTANT`. -/
def OP_NEGATE : Nat := 8

/-- Modelled from the spec: see `OP_CONSTANT`. -/
def OP_RETURN : Nat := 9

/-- The compiler's mutable state: the global `parser`, the scanner's
remaining token stream, the global `compilingChunk`, the diagnostic
stream written by `errorAt`'s `fprintf(stderr, ...)` (we record the
message strings), and a ghost flag `nullCall` that is set exactly where
the C code would invoke a NULL function pointer (undefined behavior). -/
structure CState where
  parser : Parser
  tokens : List Token
  chunk : Chunk
  diagnostics : List String
  nullCall : Bool
  deriving DecidableEq, Repr

/-! ## Error reporting helpers (`compiler.c` lines 53-72) -/

/-- Embeds `errorAt` from `compiler.c` lines 53-68: returns immediately while
`panicMode` is set; otherwise sets `panicMode`, writes the diagnostic, and
sets `hadError`. The token argument only shapes the printed text, which we
record as the bare message. -/
def errorAt (_token : Token) (message : String) (s : CState) : CState :=
  if s.parser.panicMode then s
  else
    { s with
      parser := { s.parser with panicMode := true, hadError := true },
      diagnostics := s.diagnostics ++ [message] }

/-- Embeds `error` from `compiler.c` line 70: `errorAt(&parser.current, message)`. -/
def error (message : String) (s : CState) : CState :=
  errorAt s.parser.current message s

/-- Embeds `errorAtCurrent` from `compiler.c` line 72. Its body in the source is
empty — the function is a no-op stub — so the embedding is the identity. -/
def errorAtCurrent (_message : String) (s : CState) : CState := s

/-! ## Token cursor (`compiler.c` lines 74-95) -/

/-- The `while (true)` loop inside `advance` (`compiler.c` lines 79-86):
pull tokens until the current one is not `TOKEN_ERROR`. The body's
`errorAtCurrent(parser.current.start)` is a no-op (see `errorAtCurrent`),
so the loop's only effect is to skip error tokens. -/
def advanceLoop : List Token → Token × List Token
  | [] => (eofToken, [])
  | t :: rest => if t.type = .TOKEN_ERROR then advanceLoop rest else (t, rest)

/-- Embeds `advance` from `compiler.c` lines 74-87: shift `current` into
`previous`, then scan to the first non-error token. -/
def advance (s : CState) : CState :=
  let res := advanceLoop s.tokens
  { s with
    parser := { s.parser with previous := s.parser.current, current := res.fst },
    tokens := res.snd }

/-- Embeds `consume` from `compiler.c` lines 89-95: advance when the current
token's type matches, else call `errorAtCurrent` (which does nothing). -/
def consume (type : TokenType) (message : String) (s : CState) : CState :=
  if s.parser.current.type = type then advance s
  else errorAtCurrent message s

/-! ## Bytecode emission (`compiler.c` lines 97-135) -/

/-- Modelled from the spec: `writeChunk` of the chunk module appends one
byte tagged with a source line. -/
def writeChunk (c : Chunk) (byte : Nat) (line : Nat) : Chunk :=
  { c with code := c.code ++ [byte], lines := c.lines ++ [line] }

/-- Modelled from the spec: `addConstant` of the chunk module appends the
value to the pool and returns the index at which it was added. -/
def addConstant (c : Chunk) (value : Value) : Chunk × Nat :=
  ({ c with constants := c.constants ++ [value] }, c.constants.length)

/-- Embeds `emitByte` from `compiler.c` lines 99-101: write one byte at the line
of the token just consumed. -/
def emitByte (byte : Nat) (s : CState) : CState :=
  { s with chunk := writeChunk s.chunk byte s.parser.previous.line }

/-- Embeds `emitBytes` from `compiler.c` lines 103-106. -/
def emitBytes (byte1 byte2 : Nat) (s : CState) : CState :=
  emitByte byte2 (emitByte byte1 s)

/-- Embeds `emitReturn` from `compiler.c` line 108. -/
def emitReturn (s : CState) : CState := emitByte OP_RETURN s

/-- Embeds `makeConstant` from `compiler.c` lines 110-119: add the constant, and
when its index exceeds `UINT8_MAX` report "Too many constants in one
chunk." and return placeholder index 0. -/
def makeConstant (value : Value) (s : CState) : CState × Nat :=
  let res := addConstant s.chunk value
  let s1 := { s with chunk := res.fst }
  if res.snd > 255 then (error ("Too many constants in one chunk.") s1, 0)
  else (s1, res.snd)

/-- Embeds `emitConstant` from `compiler.c` lines 121-126: the `makeConstant`
argument is evaluated first, then `OP_CONSTANT` and the index are emitted. -/
def emitConstant (value : Value) (s : CState) : CState :=
  let res := makeConstant value s
  emitBytes OP_CONSTANT res.snd res.fst

/-- Embeds `endCompiler` from `compiler.c` lines 128-135 (the debug disassembly
is compiled out and has no state effect). -/
def endCompiler (s : CState) : CState := emitReturn s

/-! ## Precedence and the rule table (`compiler.c` lines 29-49, 148-195) -/

/-- The `Precedence` enum from `compiler.c` lines 29-41. The C code relies
on the numeric ordering of the enum (it compares precedences and computes
`rule->precedence + 1`), so each enumerator is embedded as its `Nat` value. -/
def PREC_NONE : Nat := 0

/-- See `PREC_NONE`. -/
def PREC_ASSIGN : Nat := 1

/-- See `PREC_NONE`. -/
def PREC_OR : Nat := 2

/-- See `PREC_NONE`. -/
def PREC_AND : Nat := 3

/-- See `PREC_NONE`. -/
def PREC_EQUALITY : Nat := 4

/-- See `PREC_NONE`. -/
def PREC_COMPARISON : Nat := 5

/-- See `PREC_NONE`. -/
def PREC_TERM : Nat := 6

/-- See `PREC_NONE`. -/
def PREC_FACTOR : Nat := 7

/-- See `PREC_NONE`. -/
def PREC_UNARY : Nat := 8

/-- See `PREC_NONE`. -/
def PREC_CALL : Nat := 9

/-- See `PREC_NONE`. -/
def PREC_PRIMARY : Nat := 10

/-- The five parse functions whose addresses appear in the `rules` table
(`grouping`, `unary`, `binary`, `literal`, `number` in `compiler.c`).
A C function pointer is embedded as a tag dispatched by `step`. -/
inductive ParseFn where
  | fGrouping
  | fUnary
  | fBinary
  | fLiteral
  | fNumber
  deriving DecidableEq, Repr

/-- The `ParseRule` struct from `compiler.c` lines 45-49. The C fields are
named `prefix` and `infix`; they are suffixed with `Fn` here. A NULL
function pointer is `none`. -/
structure ParseRule where
  prefixFn : Option ParseFn
  infixFn : Option ParseFn
  precedence : Nat
  deriving DecidableEq, Repr

/-- The `rules` table from `compiler.c` lines 148-189, indexed by token
type (`getRule`, lines 191-195, merely returns `&rules[type]`). -/
def rules : TokenType → ParseRule
  | .TOKEN_LEFT_PAREN => ⟨some .fGrouping, none, PREC_NONE⟩
  | .TOKEN_RIGHT_PAREN => ⟨none, none, PREC_NONE⟩
  | .TOKEN_LEFT_BRACE => ⟨none, none, PREC_NONE⟩
  | .TOKEN_RIGHT_BRACE => ⟨none, none, PREC_NONE⟩
  | .TOKEN_COMMA => ⟨none, none, PREC_NONE⟩
  | .TOKEN_DOT => ⟨none, none, PREC_NONE⟩
  | .TOKEN_MINUS => ⟨some .fUnary, some .fBinary, PREC_TERM⟩
  | .TOKEN_PLUS => ⟨none, some .fBinary, PREC_TERM⟩
  | .TOKEN_SEMICOLON => ⟨none, none, PREC_NONE⟩
  | .TOKEN_SLASH => ⟨none, some .fBinary, PREC_FACTOR⟩
  | .TOKEN_STAR => ⟨none, some .fBinary, PREC_FACTOR⟩
  | .TOKEN_BANG => ⟨none, none, PREC_NONE⟩
  | .TOKEN_BANG_EQUAL => ⟨none, none, PREC_NONE⟩
  | .TOKEN_EQUAL => ⟨none, none, PREC_NONE⟩
  | .TOKEN_EQUAL_EQUAL => ⟨none, none, PREC_NONE⟩
  | .TOKEN_GREATER => ⟨none, none, PREC_NONE⟩
  | .TOKEN_GREATER_EQUAL => ⟨none, none, PREC_NONE⟩
  | .TOKEN_LESS => ⟨none, none, PREC_NONE⟩
  | .TOKEN_LESS_EQUAL => ⟨none, none, PREC_NONE⟩
  | .TOKEN_IDENTIFIER => ⟨none, none, PREC_NONE⟩
  | .TOKEN_STRING => ⟨none, none, PREC_NONE⟩
  | .TOKEN_NUMBER => ⟨some .fNumber, none, PREC_NONE⟩
  | .TOKEN_AND => ⟨none, none, PREC_NONE⟩
  | .TOKEN_CLASS => ⟨none, none, PREC_NONE⟩
  | .TOKEN_ELSE => ⟨none, none, PREC_NONE⟩
  | .TOKEN_FALSE => ⟨some .fLiteral, none, PREC_NONE⟩
  | .TOKEN_FOR => ⟨none, none, PREC_NONE⟩
  | .TOKEN_FUN => ⟨none, none, PREC_NONE⟩
  | .TOKEN_IF => ⟨none, none, PREC_NONE⟩
  | .TOKEN_NIL => ⟨some .fLiteral, none, PREC_NONE⟩
  | .TOKEN_OR => ⟨none, none, PREC_NONE⟩
  | .TOKEN_PRINT => ⟨none, none, PREC_NONE⟩
  | .TOKEN_RETURN => ⟨none, none, PREC_NONE⟩
  | .TOKEN_SUPER => ⟨none, none, PREC_NONE⟩
  | .TOKEN_THIS => ⟨none, none, PREC_NONE⟩
  | .TOKEN_TRUE => ⟨some .fLiteral, none, PREC_NONE⟩
  | .TOKEN_VAR => ⟨none, none, PREC_NONE⟩
  | .TOKEN_WHILE => ⟨none, none, PREC_NONE⟩
  | .TOKEN_ERROR => ⟨none, none, PREC_NONE⟩
  | .TOKEN_EOF => ⟨none, none, PREC_NONE⟩

/-! ## Leaf parse actions (`compiler.c` lines 215-234) -/

/-- Modelled from the spec: libc `strtod` applied to a numeric lexeme. The
claims only involve lexemes that are strings of decimal digits, so the
model parses exactly those (the value of `"1"`, `"2"`, `"3"`, ...). -/
def strtod (s : String) : Rat :=
  ((s.toList.foldl (fun a c => a * 10 + (c.toNat - 48)) 0 : Nat) : Rat)

/-- Embeds `number` from `compiler.c` lines 215-218: parse `parser.previous`'s
lexeme and emit a constant load for it. -/
def number (s : CState) : CState :=
  emitConstant (NUMBER_VAL (strtod s.parser.previous.lexeme)) s

/-- Embeds `literal` from `compiler.c` lines 220-234: one dedicated opcode for
`true` / `false` / `nil`, nothing otherwise. -/
def literal (s : CState) : CState :=
  match s.parser.previous.type with
  | .TOKEN_TRUE => emitByte OP_TRUE s
  | .TOKEN_FALSE => emitByte OP_FALSE s
  | .TOKEN_NIL => emitByte OP_NIL s
  | _ => s

/-! ## The precedence-climbing engine (`compiler.c` lines 197-287)

The mutually recursive C functions `parsePrecedence`, `binary`, `unary`,
`grouping` and `expression` are embedded as one fuel-indexed function
`step` over a call descriptor, so that the recursion is structural on the
fuel and every closed run reduces inside the kernel. Every recursive call
costs one unit of fuel; semantics with sufficient fuel is unchanged. -/

/-- Call descriptors for `step`: a `parsePrecedence(prec)` call, the
`while` loop inside `parsePrecedence` at a given threshold, or the
invocation of a parse function through a table pointer. -/
inductive Call where
  | cParse (prec : Nat)
  | cLoop (prec : Nat)
  | cRun (f : ParseFn)
  deriving DecidableEq, Repr

/-- The engine. `cParse prec` is `parsePrecedence` (`compiler.c` lines
197-213): advance, dispatch the prefix rule (reporting "Expected
expression" when it is NULL), then run the infix loop. `cLoop prec` is
that loop: while the upcoming token's infix precedence is at least the
threshold, advance and dispatch its infix rule; dispatching a NULL infix
pointer is undefined behavior in C and sets the ghost flag `nullCall`.
`cRun f` invokes a parse function: `grouping` (lines 284-287), `unary`
(lines 269-281), `binary` (lines 238-267), `literal`, `number`. -/
def step : Nat → Call → CState → CState
  | 0, _, s => s
  | fuel + 1, .cParse prec, s =>
    let s1 := advance s
    match (rules s1.parser.previous.type).prefixFn with
    | none => error ("Expected expression") s1
    | some f => step fuel (.cLoop prec) (step fuel (.cRun f) s1)
  | fuel + 1, .cLoop prec, s =>
    if prec ≤ (rules s.parser.current.type).precedence then
      let s1 := advance s
      match (rules s1.parser.previous.type).infixFn with
      | none => { s1 with nullCall := true }
      | some f => step fuel (.cLoop prec) (step fuel (.cRun f) s1)
    else s
  | fuel + 1, .cRun f, s =>
    match f with
    | .fNumber => number s
    | .fLiteral => literal s
    | .fGrouping =>
      -- The source's message text quotes the right-parenthesis character;
      -- it is paraphrased here without quote marks. The text is semantically
      -- dead either way: it reaches only the no-op errorAtCurrent.
      consume .TOKEN_RIGHT_PAREN ("Expected closing paren after expression.")
        (step fuel (.cParse PREC_ASSIGN) s)
    | .fUnary =>
      let operatorType := s.parser.previous.type
      let s1 := step fuel (.cParse PREC_UNARY) s
      match operatorType with
      | .TOKEN_MINUS => emitByte OP_NEGATE s1
      | _ => s1
    | .fBinary =>
      let operatorType := s.parser.previous.type
      let s1 := step fuel (.cParse ((rules operatorType).precedence + 1)) s
      match operatorType with
      | .TOKEN_PLUS => emitByte OP_ADD s1
      | .TOKEN_MINUS => emitByte OP_SUB s1
      | .TOKEN_STAR => emitByte OP_MULT s1
      | .TOKEN_SLASH => emitByte OP_DIV s1
      | _ => s1

/-- Embeds `parsePrecedence` from `compiler.c` lines 197-213, as a wrapper over
the fuelled engine. -/
def parsePrecedence (fuel : Nat) (precedence : Nat) (s : CState) : CState :=
  step fuel (.cParse precedence) s

/-- Embeds `expression` from `compiler.c` line 236: `parsePrecedence(PREC_ASSIGN)`. -/
def expression (fuel : Nat) (s : CState) : CState :=
  parsePrecedence fuel PREC_ASSIGN s

/-- Embeds `compile` from `compiler.c` lines 289-307. The scanner's token stream
stands in for `initScanner(source)`; the caller's chunk for
`compilingChunk = chunk`. Note that the global `parser` is NOT
re-initialized here — the incoming parser state is whatever the process
left behind — which is why it is an explicit argument. Returns the final
state and `!parser.hadError`. -/
def compile (fuel : Nat) (tokens : List Token) (p : Parser) (chunk : Chunk) :
    CState × Bool :=
  let s0 : CState :=
    { parser := p, tokens := tokens, chunk := chunk, diagnostics := [],
      nullCall := false }
  let s1 := advance s0
  let s2 := expression fuel s1
  let s3 := consume .TOKEN_EOF ("Expected end of expression.") s2
  let s4 := endCompiler s3
  (s4, !s4.parser.hadError)

/-! ## Object & string-interning subsystem (`src/object.c`)

`object.h`, `table.c`, `memory.c` and `vm.c` are not among the given
sources; the `ObjString` layout, the VM's globals and the intern-table
operations are modelled from the spec (sections 3, 4.5 and 6). Heap
objects are identified by `Nat` ids into an append-only heap list; the
character buffer of a string is a list of `Option Nat` cells where `none`
is an uninitialized byte (C heap memory that was never written). -/

/-- Modelled from the spec: the `ObjString` object variant — `length`,
precomputed `hash`, inline null-terminated byte buffer of `length + 1`
cells. The hash field is `none` while it has not been computed, or when it
was computed by reading uninitialized cells (an unspecified C value). -/
structure ObjString where
  length : Nat
  chars : List (Option Nat)
  hash : Option Nat
  deriving DecidableEq, Repr

/-- Modelled from the spec: the VM's process-wide state — the heap (ids
are list indices, allocation appends), the intrusive object list
`vm.objects` (a list of ids, newest first), and the intern table
`vm.strings` (its keys, a list of ids in insertion order). -/
structure VM where
  heap : List ObjString
  objects : List Nat
  strings : List Nat
  deriving DecidableEq, Repr

/-- The VM state at process start: nothing allocated. -/
def emptyVM : VM := { heap := [], objects := [], strings := [] }

/-- Reading `buf[i]` from a C byte buffer whose live bytes are the list
`l`: the claims only evaluate reads that a well-defined C caller performs
(a NUL terminator is reached inside `l`), so reads past the end are given
the defined value 0. -/
def byteAt (l : List Nat) (i : Nat) : Nat := l.getD i 0

/-- The first `length` bytes at a buffer, `chars[0] .. chars[length-1]` —
what `writeToString` copies and `hashString` hashes. -/
def cBytes (chars : List Nat) (length : Nat) : List Nat :=
  (List.range length).map (byteAt chars)

/-- One step of FNV-1a from `hashString` (`object.c` lines 29-32):
`hash ^= key[i]; hash *= 16777619;` in `uint32_t` arithmetic. -/
def fnvStep (hash b : Nat) : Nat := ((hash ^^^ b) * 16777619) % 2 ^ 32

/-- Embeds `hashString` from `object.c` lines 26-35: FNV-1a over the given key
bytes starting from offset basis 2166136261. -/
def hashString (key : List Nat) : Nat := key.foldl fnvStep 2166136261

/-- Reading a run of buffer cells as defined bytes: `none` (all cells
initialized, these bytes) or `none`-propagating when any cell is
uninitialized, in which case a C read yields an unspecified value. -/
def readCells : List (Option Nat) → Option (List Nat)
  | [] => some []
  | c :: rest =>
    match c with
    | none => none
    | some b =>
      match readCells rest with
      | none => none
      | some bs => some (b :: bs)

/-- The defined content of heap string `id`: its first `length` buffer
cells, when they are all initialized. -/
def contentOf (vm : VM) (id : Nat) : Option (List Nat) :=
  match vm.heap[id]? with
  | none => none
  | some o => readCells (o.chars.take o.length)

/-- Modelled from the spec: `tableSet(&vm.strings, string, NIL_VAL)` on the
intern table. Keys are object references; inserting a key already present
overwrites its value (the value is always `NIL_VAL` here) and does not
grow the table, a new key is appended. -/
def tableSet (strings : List Nat) (id : Nat) : List Nat :=
  if id ∈ strings then strings else strings ++ [id]

/-- Modelled from the spec: `tableFindString(&vm.strings, chars, length,
hash)` — find-by-content lookup returning the canonical instance holding
exactly the given bytes, if one is interned. -/
def tableFindString (vm : VM) (bytes : List Nat) : Option Nat :=
  vm.strings.find? (fun id => contentOf vm id = some bytes)

/-- The copy loop of `allocateString` (`object.c` line 42-44):
`for (int i = 0; chars[i]; i++) string->chars[i] = chars[i];` — it stops
at the first NUL byte of the SOURCE, regardless of `length`. The write
index tracks the read index. -/
def copyLoop : List Nat → Nat → List (Option Nat) → List (Option Nat)
  | [], _, buf => buf
  | c :: rest, i, buf =>
    if c = 0 then buf else copyLoop rest (i + 1) (buf.set i (some c))

/-- A freshly allocated, uninitialized character buffer of `length + 1`
cells (`sizeof(ObjString) + sizeof(char) * (length + 1)`). -/
def freshBuffer (length : Nat) : List (Option Nat) :=
  List.replicate (length + 1) none

/-- Embeds `allocateString` from `object.c` lines 37-49: allocate a tracked
string object (`allocateObject` threads it onto `vm.objects`), run the
copy loop, set `length`, null-terminate at `length`, and hash
`string->chars` over `length` bytes — reading whatever the copy loop left
there. Returns the new state and the object's id. -/
def allocateString (vm : VM) (chars : List Nat) (length : Nat) : VM × Nat :=
  let buf1 := copyLoop chars 0 (freshBuffer length)
  let buf2 := buf1.set length (some 0)
  let hash := (readCells (buf2.take length)).map hashString
  let obj : ObjString := { length := length, chars := buf2, hash := hash }
  let id := vm.heap.length
  ({ vm with heap := vm.heap ++ [obj], objects := id :: vm.objects }, id)

/-- Embeds `takeString` from `object.c` lines 91-93: delegates to
`allocateString`. -/
def takeString (vm : VM) (chars : List Nat) (length : Nat) : VM × Nat :=
  allocateString vm chars length

/-- Embeds `xallocateString` from `object.c` lines 68-74: allocate a string
object of the given length with an uninitialized character array except
for the NUL terminator at `length`, computing no hash, tracking it in no
list (`xallocateObject` skips the `vm.objects` linkage). -/
def xallocateString (vm : VM) (length : Nat) : VM × Nat :=
  let obj : ObjString :=
    { length := length, chars := (freshBuffer length).set length (some 0),
      hash := none }
  let id := vm.heap.length
  ({ vm with heap := vm.heap ++ [obj] }, id)

/-- Embeds `writeToString` from `object.c` lines 51-57: copy exactly
`string->length` bytes from the source buffer (`for (i = 0; i <
string->length; i++)`), null-terminate at `string->length`, and set the
hash to FNV-1a of the just-written bytes. The string's buffer has exactly
`length + 1` cells, so the writes cover it entirely; the updated buffer is
the copied bytes followed by the terminator. -/
def writeToString (vm : VM) (id : Nat) (chars : List Nat) : VM :=
  match vm.heap[id]? with
  | none => vm
  | some o =>
    let bytes := cBytes chars o.length
    let obj : ObjString :=
      { length := o.length, chars := bytes.map some ++ [some 0],
        hash := some (hashString bytes) }
    { vm with heap := vm.heap.set id obj }

/-- Embeds `storeString` from `object.c` lines 59-63: insert the string into the
intern table and thread it onto the head of `vm.objects`. -/
def storeString (vm : VM) (id : Nat) : VM :=
  { vm with strings := tableSet vm.strings id, objects := id :: vm.objects }

/-- Embeds `validateString` from `object.c` lines 80-89 (the spec's
`internOrReplace`): look up a canonical instance for the string's content;
on a hit the LOCAL pointer is redirected to the canonical instance (the
caller's object is neither freed — the source carries a `TODO` — nor
communicated back, since the function returns `void`); then, on BOTH
paths, `storeString` runs on whatever the pointer now designates. -/
def validateString (vm : VM) (id : Nat) : VM :=
  let interned :=
    match contentOf vm id with
    | some bytes => tableFindString vm bytes
    | none => none
  let ptr := match interned with
    | some i => i
    | none => id
  storeString vm ptr

/-- Embeds `copyString` from `object.c` lines 95-114: build an untracked scratch
string, fill it from the source bytes, and look its content up in the
intern table. On a hit, `free` the scratch (the model simply drops the last
reference to it; its heap cell stays as garbage) and return the canonical
instance. On a miss, insert the scratch into the intern table — and only
the table: this path never links the scratch onto `vm.objects` — and
return it. -/
def copyString (vm : VM) (chars : List Nat) (length : Nat) : VM × Nat :=
  let res := xallocateString vm length
  let vm1 := writeToString res.fst res.snd chars
  let interned := tableFindString vm1 (cBytes chars length)
  match interned with
  | some i => (vm1, i)
  | none => ({ vm1 with strings := tableSet vm1.strings res.snd }, res.snd)

/-! ## Concrete inputs used by the claims -/

/-- A number token with the given lexeme, on line 1. -/
def numTok (lexeme : String) : Token :=
  { type := .TOKEN_NUMBER, lexeme := lexeme, line := 1 }

/-- An operator or punctuation token of the given type, on line 1. -/
def opTok (type : TokenType) : Token := { type := type, lexeme := "", line := 1 }

/-- Modelled from the spec: the scanner's token stream for the source
text of an unbalanced parenthesis followed by one plus two. -/
def toksUnbalancedParen : List Token :=
  [opTok .TOKEN_LEFT_PAREN, numTok ("1"), opTok .TOKEN_PLUS, numTok ("2"),
    opTok .TOKEN_EOF]

/-- Modelled from the spec: the scanner's token stream for the source
text one plus two times three. -/
def toksOnePlusTwoTimesThree : List Token :=
  [numTok ("1"), opTok .TOKEN_PLUS, numTok ("2"), opTok .TOKEN_STAR,
    numTok ("3"), opTok .TOKEN_EOF]

/-- Modelled from the spec: the scanner's token stream for the source
text of parenthesized one plus two, times three. -/
def toksParenOnePlusTwoTimesThree : List Token :=
  [opTok .TOKEN_LEFT_PAREN, numTok ("1"), opTok .TOKEN_PLUS, numTok ("2"),
    opTok .TOKEN_RIGHT_PAREN, opTok .TOKEN_STAR, numTok ("3"), opTok .TOKEN_EOF]

/-- Modelled from the spec: the scanner's token stream for the source
text one plus two plus three. -/
def toksOnePlusTwoPlusThree : List Token :=
  [numTok ("1"), opTok .TOKEN_PLUS, numTok ("2"), opTok .TOKEN_PLUS,
    numTok ("3"), opTok .TOKEN_EOF]

/-- Modelled from the spec: the scanner's token stream for the source
text minus three. -/
def toksNegThree : List Token :=
  [opTok .TOKEN_MINUS, numTok ("3"), opTok .TOKEN_EOF]

/-- Modelled from the spec: the scanner's token stream for empty source
text. -/
def toksEmptySource : List Token := [opTok .TOKEN_EOF]

/-- Modelled from the spec: the scanner's token stream for the source
text of the single literal one. -/
def toksOne : List Token := [numTok ("1"), opTok .TOKEN_EOF]

/-- The compiler state `compile` builds at entry for the stream of a
single number literal, before any token is consumed. -/
def baseCState : CState :=
  { parser := initialParser, tokens := toksOne, chunk := emptyChunk,
    diagnostics := [], nullCall := false }

/-- A compiler state whose chunk already holds 256 constants, so that the
next constant receives index 256 — past the one-byte operand range. -/
def cstateFull : CState :=
  { parser := initialParser, tokens := [],
    chunk := { code := [], lines := [], constants := List.replicate 256 NIL_VAL },
    diagnostics := [], nullCall := false }

/-- A canonical interned string object with content the single byte 97. -/
def canonA : ObjString :=
  { length := 1, chars := [some 97, some 0], hash := some (hashString [97]) }

/-- A VM in which id 0 is the canonical interned instance of the one-byte
string 97, registered in the intern table and the object list, and id 1 is
a caller-built instance with the same content that is not yet validated. -/
def vmHitA : VM := { heap := [canonA, canonA], objects := [0], strings := [0] }

/-- The string object `copyString` builds before its intern lookup: the
first `length` source bytes, a NUL terminator, and their FNV-1a hash. -/
def mkStrObj (chars : List Nat) (length : Nat) : ObjString :=
  { length := length, chars := (cBytes chars length).map some ++ [some 0],
    hash := some (hashString (cBytes chars length)) }

/-- Call descriptors whose precedence threshold is at least `PREC_ASSIGN`:
the ones reachable from `expression` / `parsePrecedence(PREC_ASSIGN)`,
since every recursion site passes `PREC_ASSIGN`, `PREC_UNARY`, or a rule
precedence plus one. -/
def goodCall : Call → Prop
  | .cParse prec => 1 ≤ prec
  | .cLoop prec => 1 ≤ prec
  | .cRun _ => True

/-! ## Theorems -/

/-- C1: The claim states that a failed `consume` records a compile error at
the current token (making `hadError` true) while not consuming the token,
and that compiling the unbalanced-parenthesis input fails. The code
contradicts this: `errorAtCurrent` (`compiler.c` line 72) has an empty
body, so a failed `consume` changes nothing at all, and compiling the
unbalanced input returns success with `hadError` still false. This theorem
evaluates the code at the failing input. -/
theorem consume_stub_drops_unbalanced_paren_error :
    consume .TOKEN_RIGHT_PAREN ("Expected closing paren after expression.")
        baseCState = baseCState ∧
    (compile 32 toksUnbalancedParen initialParser emptyChunk).snd = true ∧
    (compile 32 toksUnbalancedParen initialParser emptyChunk).fst.parser.hadError
      = false ∧
    (compile 32 toksUnbalancedParen initialParser emptyChunk).fst.diagnostics
      = [] := by
  refine ⟨rfl, ?_, ?_, ?_⟩ <;> decide

/-- C2, counterexample: the claim states every `compile` call resets
`hadError` and `panicMode` at entry, so its result is independent of
earlier compilations. In the code `compile` (`compiler.c` lines 289-307)
never touches those flags: after a failed compilation of empty input, the
very same well-formed input that compiles successfully from the
zero-initialized parser is reported as failed. -/
theorem compile_result_depends_on_prior_state :
    (compile 32 toksEmptySource initialParser emptyChunk).fst.parser.hadError
      = true ∧
    (compile 32 toksOne initialParser emptyChunk).snd = true ∧
    (compile 32 toksOne
        (compile 32 toksEmptySource initialParser emptyChunk).fst.parser
        emptyChunk).snd = false := by
  refine ⟨?_, ?_, ?_⟩ <;> decide

/-- C3: The claim (and the doc comment of `validateString` itself) states
that on an intern-table hit the caller's instance is discarded in favor of
the canonical one, and that only on a miss is the instance registered in
the table and the object list. The code contradicts this: the pointer
reassignment is local, nothing is freed (the source carries a `TODO`), and
`storeString` runs on BOTH paths, so a hit re-threads the already-tracked
canonical instance onto `vm.objects` (corrupting the intrusive list) while
the caller's duplicate stays allocated. Evaluated at a state holding a
canonical one-byte string (id 0) and a same-content duplicate (id 1). -/
theorem validateString_hit_rethreads_canonical :
    (validateString vmHitA 1).objects = [0, 0] ∧
    (validateString vmHitA 1).strings = [0] ∧
    (validateString vmHitA 1).heap = vmHitA.heap := by
  refine ⟨?_, ?_, ?_⟩ <;> decide

/-- C4, counterexample: the claim states the `Value` type has exactly four
variants (Bool, Nil, Number, Object). The `ValueType` enum of `value.h`
lines 6-10 has exactly three — no four pairwise-distinct tags exist. -/
theorem valueType_has_no_four_variants :
    ¬ ∃ a b c d : ValueType,
      a ≠ b ∧ a ≠ c ∧ a ≠ d ∧ b ≠ c ∧ b ≠ d ∧ c ≠ d := by
  rintro ⟨a, b, c, d, hab, hac, had, hbc, hbd, hcd⟩
  cases a <;> cases b <;> cases c <;> cases d <;> simp_all

/-- C4, amended: the runtime `Value` type of `value.h` is a tagged union
with exactly the three variants Bool(bool), Nil, Number(f64), and only the
payload matching the tag is valid (each constructor form carries exactly
its tag). -/
theorem value_is_three_variant_tagged_union :
    (∀ t : ValueType, t = .VAL_BOOL ∨ t = .VAL_NIL ∨ t = .VAL_NUMBER) ∧
    (∀ v : Value,
      (∃ b, v = BOOL_VAL b) ∨ v = NIL_VAL ∨ (∃ x, v = NUMBER_VAL x)) ∧
    (∀ b, (BOOL_VAL b).type = .VAL_BOOL) ∧
    NIL_VAL.type = .VAL_NIL ∧
    (∀ x, (NUMBER_VAL x).type = .VAL_NUMBER) := by
  refine ⟨fun t => ?_, fun v => ?_, fun b => rfl, rfl, fun x => rfl⟩
  · cases t <;> simp
  · cases v with
    | VBool b => exact Or.inl ⟨b, rfl⟩
    | VNil => exact Or.inr (Or.inl rfl)
    | VNumber x => exact Or.inr (Or.inr ⟨x, rfl⟩)

/-- C5: compiling one plus two times three emits the constants in order
1, 2, 3 with the multiply opcode before the add opcode; compiling the
parenthesized sum times three emits add before multiply; and one plus two
plus three groups to the left, its first add emitted before the second. -/
theorem emission_order_respects_precedence_and_grouping :
    ((compile 32 toksOnePlusTwoTimesThree initialParser emptyChunk).fst.chunk.code
        = [OP_CONSTANT, 0, OP_CONSTANT, 1, OP_CONSTANT, 2, OP_MULT, OP_ADD,
            OP_RETURN] ∧
      (compile 32 toksOnePlusTwoTimesThree initialParser
          emptyChunk).fst.chunk.constants
        = [NUMBER_VAL 1, NUMBER_VAL 2, NUMBER_VAL 3]) ∧
    (compile 32 toksParenOnePlusTwoTimesThree initialParser
        emptyChunk).fst.chunk.code
      = [OP_CONSTANT, 0, OP_CONSTANT, 1, OP_ADD, OP_CONSTANT, 2, OP_MULT,
          OP_RETURN] ∧
    (compile 32 toksOnePlusTwoPlusThree initialParser emptyChunk).fst.chunk.code
      = [OP_CONSTANT, 0, OP_CONSTANT, 1, OP_ADD, OP_CONSTANT, 2, OP_ADD,
          OP_RETURN] := by
  refine ⟨⟨?_, ?_⟩, ?_, ?_⟩ <;> decide

/-- C6: The claim states `allocateString` copies exactly `length` bytes —
even with an embedded NUL — and hashes exactly those bytes. The copy loop
of `object.c` line 42 is `for (int i = 0; chars[i]; i++)`, which stops at
the first NUL of the input: for input bytes 97, 0, 98 with length 3 only
byte 97 is copied, cells 1 and 2 of the new object stay uninitialized
(`none`), and the hash is computed from uninitialized memory (modelled
`none`), not FNV-1a of the three input bytes. `takeString` delegates to
`allocateString` unchanged. This theorem evaluates the code at that
failing input. -/
theorem allocateString_stops_at_embedded_nul :
    (allocateString emptyVM [97, 0, 98] 3).fst.heap
      = [{ length := 3, chars := [some 97, none, none, some 0], hash := none }] ∧
    (allocateString emptyVM [97, 0, 98] 3).fst.objects = [0] ∧
    takeString emptyVM [97, 0, 98] 3 = allocateString emptyVM [97, 0, 98] 3 := by
  exact ⟨by decide, by decide, rfl⟩

/-! ### Supporting lemmas: what the emission and cursor primitives preserve -/

/-- Advancing the cursor does not change the error flag. -/
theorem advance_hadError (s : CState) :
    (advance s).parser.hadError = s.parser.hadError := rfl

/-- Advancing the cursor does not change the ghost null-call flag. -/
theorem advance_nullCall (s : CState) : (advance s).nullCall = s.nullCall := rfl

/-- Error reporting never clears the error flag. -/
theorem error_hadError_mono (m : String) (s : CState)
    (h : s.parser.hadError = true) : (error m s).parser.hadError = true := by
  unfold error errorAt
  split <;> simp [h]

/-- Error reporting does not touch the ghost null-call flag. -/
theorem error_nullCall (m : String) (s : CState) :
    (error m s).nullCall = s.nullCall := by
  unfold error errorAt
  split <;> rfl

/-- Consuming a token never clears the error flag. -/
theorem consume_hadError (t : TokenType) (m : String) (s : CState) :
    (consume t m s).parser.hadError = s.parser.hadError := by
  unfold consume errorAtCurrent
  split <;> rfl

/-- Consuming a token does not touch the ghost null-call flag. -/
theorem consume_nullCall (t : TokenType) (m : String) (s : CState) :
    (consume t m s).nullCall = s.nullCall := by
  unfold consume errorAtCurrent
  split <;> rfl

/-- Emitting a byte does not change the parser state. -/
theorem emitByte_parserEq (b : Nat) (s : CState) :
    (emitByte b s).parser = s.parser := rfl

/-- Emitting a byte does not touch the ghost null-call flag. -/
theorem emitByte_nullCall (b : Nat) (s : CState) :
    (emitByte b s).nullCall = s.nullCall := rfl

/-- Emits two bytes: parser unchanged. -/
theorem emitBytes_parserEq (b1 b2 : Nat) (s : CState) :
    (emitBytes b1 b2 s).parser = s.parser := rfl

/-- Emits two bytes: null flag unchanged. -/
theorem emitBytes_nullCall (b1 b2 : Nat) (s : CState) :
    (emitBytes b1 b2 s).nullCall = s.nullCall := rfl

/-- Interning a constant never clears the error flag. -/
theorem emitConstant_hadError_mono (v : Value) (s : CState)
    (h : s.parser.hadError = true) :
    (emitConstant v s).parser.hadError = true := by
  by_cases hc : (addConstant s.chunk v).snd > 255
  · have he : emitConstant v s
        = emitBytes OP_CONSTANT 0
            (error ("Too many constants in one chunk.")
              { s with chunk := (addConstant s.chunk v).fst }) := by
      simp [emitConstant, makeConstant, hc]
    rw [he, emitBytes_parserEq]
    exact error_hadError_mono _ _ h
  · have he : emitConstant v s
        = emitBytes OP_CONSTANT (addConstant s.chunk v).snd
            { s with chunk := (addConstant s.chunk v).fst } := by
      simp [emitConstant, makeConstant, hc]
    rw [he, emitBytes_parserEq]
    exact h

/-- Interning a constant does not touch the ghost null-call flag. -/
theorem emitConstant_nullCall (v : Value) (s : CState) :
    (emitConstant v s).nullCall = s.nullCall := by
  by_cases hc : (addConstant s.chunk v).snd > 255
  · have he : emitConstant v s
        = emitBytes OP_CONSTANT 0
            (error ("Too many constants in one chunk.")
              { s with chunk := (addConstant s.chunk v).fst }) := by
      simp [emitConstant, makeConstant, hc]
    rw [he, emitBytes_nullCall]
    exact error_nullCall _ _
  · have he : emitConstant v s
        = emitBytes OP_CONSTANT (addConstant s.chunk v).snd
            { s with chunk := (addConstant s.chunk v).fst } := by
      simp [emitConstant, makeConstant, hc]
    rw [he, emitBytes_nullCall]

/-- The number action never clears the error flag. -/
theorem number_hadError_mono (s : CState) (h : s.parser.hadError = true) :
    (number s).parser.hadError = true := by
  unfold number
  exact emitConstant_hadError_mono _ _ h

/-- The number action does not touch the ghost null-call flag. -/
theorem number_nullCall (s : CState) : (number s).nullCall = s.nullCall := by
  unfold number
  exact emitConstant_nullCall _ _

/-- The literal action does not change the parser state. -/
theorem literal_parserEq (s : CState) : (literal s).parser = s.parser := by
  unfold literal
  split <;> rfl

/-- The literal action does not touch the ghost null-call flag. -/
theorem literal_nullCall (s : CState) : (literal s).nullCall = s.nullCall := by
  unfold literal
  split <;> rfl

/-- Sticky error flag through the engine. -/
theorem step_hadError_mono :
    ∀ (fuel : Nat) (c : Call) (s : CState), s.parser.hadError = true →
      (step fuel c s).parser.hadError = true := by
  intro fuel
  induction fuel with
  | zero => intro c s h; simpa [step] using h
  | succ n ih =>
    intro c s h
    cases c with
    | cParse prec =>
      simp only [step]
      cases hpf : (rules (advance s).parser.previous.type).prefixFn with
      | none =>
        simp only [hpf]
        exact error_hadError_mono _ _ ((advance_hadError s).trans h)
      | some f =>
        simp only [hpf]
        exact ih _ _ (ih _ _ ((advance_hadError s).trans h))
    | cLoop prec =>
      simp only [step]
      split
      · cases hif : (rules (advance s).parser.previous.type).infixFn with
        | none =>
          simp only [hif]
          exact (advance_hadError s).trans h
        | some f =>
          simp only [hif]
          exact ih _ _ (ih _ _ ((advance_hadError s).trans h))
      · exact h
    | cRun f =>
      cases f with
      | fNumber => simp only [step]; exact number_hadError_mono _ h
      | fLiteral => simp only [step]; rw [literal_parserEq]; exact h
      | fGrouping =>
        simp only [step]
        rw [consume_hadError]
        exact ih _ _ h
      | fUnary =>
        simp only [step]
        split <;> (try simp only [emitByte_parserEq]) <;> exact ih _ _ h
      | fBinary =>
        simp only [step]
        split <;> (try simp only [emitByte_parserEq]) <;> exact ih _ _ h

/-- C9: compiling negated three succeeds and emits exactly a constant load
of the number 3 (opcode plus pool index 0), the negate opcode, and the
return opcode. -/
theorem compile_neg_three_exact_bytecode :
    (compile 32 toksNegThree initialParser emptyChunk).snd = true ∧
    (compile 32 toksNegThree initialParser emptyChunk).fst.chunk.code
      = [OP_CONSTANT, 0, OP_NEGATE, OP_RETURN] ∧
    (compile 32 toksNegThree initialParser emptyChunk).fst.chunk.constants
      = [NUMBER_VAL 3] := by
  refine ⟨?_, ?_, ?_⟩ <;> decide

/-! ### Supporting lemmas: the intern table under `copyString` -/

/-- Reading back a fully initialized buffer yields its bytes. -/
theorem readCells_map_some (bytes : List Nat) :
    readCells (bytes.map some) = some bytes := by
  induction bytes with
  | nil => rfl
  | cons b bs ih => simp [readCells, ih]

/-- Reads of the first `n` bytes of a buffer form a list of length `n`. -/
theorem cBytes_length (chars : List Nat) (n : Nat) :
    (cBytes chars n).length = n := by
  simp [cBytes]

/-- Setting the cell one past a list's end, after appending a sentinel,
replaces the sentinel. -/
theorem set_concat_length {α : Type} (l : List α) (a b : α) :
    (l ++ [a]).set l.length b = l ++ [b] := by
  induction l with
  | nil => rfl
  | cons x xs ih => simp [List.set, ih]

/-- Searching an appended list when the prefix has no match searches the
suffix. -/
theorem find?_append_of_none {α : Type} (p : α → Bool) (l1 l2 : List α)
    (h : l1.find? p = none) : (l1 ++ l2).find? p = l2.find? p := by
  induction l1 with
  | nil => rfl
  | cons x xs ih =>
    cases hx : p x with
    | true => rw [List.find?_cons_of_pos _ hx] at h; exact absurd h (by simp)
    | false =>
      rw [List.find?_cons_of_neg _ (by simp [hx])] at h
      rw [List.cons_append, List.find?_cons_of_neg _ (by simp [hx])]
      exact ih h

/-- Unfolds one `copyString` call: the scratch string is appended to the
heap (untracked), and the intern lookup decides whether the scratch or a
canonical instance is returned. -/
theorem copyString_unfold (vm : VM) (chars : List Nat) (length : Nat) :
    copyString vm chars length =
      (match tableFindString { vm with heap := vm.heap ++ [mkStrObj chars length] }
          (cBytes chars length) with
        | some i => ({ vm with heap := vm.heap ++ [mkStrObj chars length] }, i)
        | none =>
          ({ vm with
              heap := vm.heap ++ [mkStrObj chars length],
              strings := tableSet vm.strings vm.heap.length }, vm.heap.length)) := by
  unfold copyString xallocateString writeToString
  simp only [List.getElem?_concat_length, set_concat_length, mkStrObj]

/-- Content lookup depends only on the heap cell read. -/
theorem contentOf_congr (vm1 vm2 : VM) (id : Nat)
    (h : vm1.heap[id]? = vm2.heap[id]?) : contentOf vm1 id = contentOf vm2 id := by
  unfold contentOf
  rw [h]

/-- A heap cell holding a scratch string built by `copyString` has exactly
the copied source bytes as content. -/
theorem contentOf_of_mkStrObj (vm : VM) (id : Nat) (chars : List Nat)
    (length : Nat) (h : vm.heap[id]? = some (mkStrObj chars length)) :
    contentOf vm id = some (cBytes chars length) := by
  unfold contentOf
  rw [h]
  show readCells ((mkStrObj chars length).chars.take length) = _
  simp only [mkStrObj]
  rw [List.take_left' (by simp [cBytes_length])]
  exact readCells_map_some _

/-- On content not yet interned, `copyString` registers the scratch as the
new canonical instance: the intern table gains exactly it, the object list
is untouched, and its id is returned. -/
theorem copyString_miss (vm : VM) (chars : List Nat) (length : Nat)
    (hwf : ∀ id ∈ vm.strings, id < vm.heap.length)
    (hmiss : tableFindString vm (cBytes chars length) = none) :
    copyString vm chars length =
      ({ vm with
          heap := vm.heap ++ [mkStrObj chars length],
          strings := vm.strings ++ [vm.heap.length] }, vm.heap.length) := by
  rw [copyString_unfold]
  have hfind : tableFindString
      { vm with heap := vm.heap ++ [mkStrObj chars length] }
      (cBytes chars length) = none := by
    unfold tableFindString at hmiss ⊢
    rw [List.find?_eq_none] at hmiss ⊢
    intro id hid
    simp only [decide_eq_true_eq] at hmiss ⊢
    rw [contentOf_congr _ vm id
      (List.getElem?_append_left (hwf id hid))]
    exact hmiss id hid
  rw [hfind]
  have hnot : vm.heap.length ∉ vm.strings := fun hmem =>
    absurd (hwf _ hmem) (by omega)
  show ({ vm with
      heap := vm.heap ++ [mkStrObj chars length],
      strings := tableSet vm.strings vm.heap.length }, vm.heap.length) = _
  unfold tableSet
  rw [if_neg hnot]

/-- A second `copyString` of the same content hits the intern table: it
returns the id the first call interned, frees its scratch (which stays in
the heap model as an unreferenced cell), and leaves the table unchanged. -/
theorem copyString_second (vm : VM) (chars : List Nat) (length : Nat)
    (hwf : ∀ id ∈ vm.strings, id < vm.heap.length)
    (hmiss : tableFindString vm (cBytes chars length) = none) :
    copyString (copyString vm chars length).fst chars length =
      ({ vm with
          heap := vm.heap ++ [mkStrObj chars length, mkStrObj chars length],
          strings := vm.strings ++ [vm.heap.length] }, vm.heap.length) := by
  rw [copyString_miss vm chars length hwf hmiss]
  rw [copyString_unfold]
  have hget : (({ vm with
      heap := vm.heap ++ [mkStrObj chars length],
      strings := vm.strings ++ [vm.heap.length] } : VM).heap
        ++ [mkStrObj chars length])[vm.heap.length]?
      = some (mkStrObj chars length) := by
    rw [show ({ vm with
        heap := vm.heap ++ [mkStrObj chars length],
        strings := vm.strings ++ [vm.heap.length] } : VM).heap
        = vm.heap ++ [mkStrObj chars length] from rfl]
    rw [List.getElem?_append_left (by simp), List.getElem?_concat_length]
  have hfind : tableFindString
      { ({ vm with
          heap := vm.heap ++ [mkStrObj chars length],
          strings := vm.strings ++ [vm.heap.length] } : VM) with
        heap := ({ vm with
          heap := vm.heap ++ [mkStrObj chars length],
          strings := vm.strings ++ [vm.heap.length] } : VM).heap
            ++ [mkStrObj chars length] }
      (cBytes chars length) = some vm.heap.length := by
    unfold tableFindString
    show List.find? _ (vm.strings ++ [vm.heap.length]) = _
    rw [find?_append_of_none]
    · rw [List.find?_cons_of_pos]
      rw [decide_eq_true_eq]
      exact contentOf_of_mkStrObj _ _ chars length hget
    · rw [List.find?_eq_none]
      intro id hid
      simp only [decide_eq_true_eq]
      rw [contentOf_congr _ vm id ?_]
      · unfold tableFindString at hmiss
        rw [List.find?_eq_none] at hmiss
        have := hmiss id hid
        simpa using this
      · show ((vm.heap ++ [mkStrObj chars length])
            ++ [mkStrObj chars length])[id]? = _
        rw [List.getElem?_append_left
            (by have h2 := hwf id hid; simp; omega),
          List.getElem?_append_left (hwf id hid)]
  rw [hfind]
  show ({ vm with
      heap := (vm.heap ++ [mkStrObj chars length]) ++ [mkStrObj chars length],
      strings := vm.strings ++ [vm.heap.length] }, vm.heap.length) = _
  rw [List.append_assoc]
  rfl

/-- C7: calling `copyString` twice with identical byte content returns the
identical canonical reference both times — the second call's scratch is
discarded in favor of the instance the first call interned — and the
intern table grows by exactly one entry across the two calls, not two.
Stated for any starting VM whose intern table is well-formed (its ids are
allocated) and does not yet intern the content. -/
theorem copyString_twice_returns_canonical_once
    (vm : VM) (chars : List Nat) (length : Nat)
    (hwf : ∀ id ∈ vm.strings, id < vm.heap.length)
    (hmiss : tableFindString vm (cBytes chars length) = none) :
    (copyString (copyString vm chars length).fst chars length).snd
      = (copyString vm chars length).snd ∧
    (copyString (copyString vm chars length).fst chars length).fst.strings.length
      = vm.strings.length + 1 := by
  rw [copyString_second vm chars length hwf hmiss,
    copyString_miss vm chars length hwf hmiss]
  constructor
  · rfl
  · simp

/-- C7, witness: both hypotheses hold for the empty VM and the one-byte
content 97, and the two `copyString` calls return one shared canonical id
while growing the intern table from zero entries to one. -/
theorem copyString_twice_returns_canonical_once_witness :
    ((∀ id ∈ emptyVM.strings, id < emptyVM.heap.length) ∧
      tableFindString emptyVM (cBytes [97] 1) = none) ∧
    ((copyString (copyString emptyVM [97] 1).fst [97] 1).snd
        = (copyString emptyVM [97] 1).snd ∧
      (copyString (copyString emptyVM [97] 1).fst [97] 1).fst.strings.length
        = emptyVM.strings.length + 1) :=
  ⟨⟨by simp [emptyVM], rfl⟩,
    copyString_twice_returns_canonical_once emptyVM [97] 1 (by simp [emptyVM]) rfl⟩

/-- C2, amended: `compile` does not initialize the parser state at entry —
the source never resets `hadError` or `panicMode` — so `hadError` is sticky
across compilations on the same process state: any `compile` entered with
`hadError` already set reports failure regardless of its input, and leaves
the flag set. (Only the zero-initialized process-start state has the flags
clear, so only the first compilation's result is guaranteed to reflect
just its own errors.) -/
theorem compile_never_resets_parser_state (fuel : Nat) (tokens : List Token)
    (p : Parser) (chunk : Chunk) (h : p.hadError = true) :
    (compile fuel tokens p chunk).snd = false ∧
    (compile fuel tokens p chunk).fst.parser.hadError = true := by
  have hs4 : (compile fuel tokens p chunk).fst.parser.hadError = true := by
    show (endCompiler (consume .TOKEN_EOF ("Expected end of expression.")
        (expression fuel (advance
          { parser := p, tokens := tokens, chunk := chunk, diagnostics := [],
            nullCall := false })))).parser.hadError = true
    unfold endCompiler emitReturn
    rw [emitByte_parserEq, consume_hadError]
    exact step_hadError_mono fuel (.cParse PREC_ASSIGN) _
      ((advance_hadError _).trans h)
  refine ⟨?_, hs4⟩
  show (!(compile fuel tokens p chunk).fst.parser.hadError) = false
  rw [hs4]
  rfl

/-- C2, amended, witness: entering `compile` with `hadError` carried over
from an earlier failed compilation makes it report failure on the
single-literal stream that compiles fine from a clean state. -/
theorem compile_never_resets_parser_state_witness :
    ({ initialParser with hadError := true } : Parser).hadError = true ∧
    ((compile 32 toksOne { initialParser with hadError := true } emptyChunk).snd
        = false ∧
      (compile 32 toksOne { initialParser with hadError := true }
          emptyChunk).fst.parser.hadError = true) :=
  ⟨rfl, compile_never_resets_parser_state 32 toksOne _ emptyChunk rfl⟩

/-- Table lemma for C10: every token type whose precedence in `rules` is
above `PREC_NONE` (`TOKEN_MINUS`, `TOKEN_PLUS`, `TOKEN_SLASH`,
`TOKEN_STAR`) carries a non-NULL infix action. -/
theorem rules_pos_prec_infix_isSome :
    ∀ t : TokenType, PREC_NONE < (rules t).precedence → (rules t).infixFn ≠ none := by
  intro t
  cases t <;> decide

/-- Engine lemma for C10: starting from any call whose precedence
threshold is at least `PREC_ASSIGN`, the engine never reaches the NULL
infix dispatch, because the loop guard admits only tokens of positive
precedence and those all carry infix actions; every internal recursion
site again passes a threshold of at least `PREC_ASSIGN`. -/
theorem step_nullCall_preserved :
    ∀ (fuel : Nat) (c : Call) (s : CState), goodCall c → s.nullCall = false →
      (step fuel c s).nullCall = false := by
  intro fuel
  induction fuel with
  | zero => intro c s _ h; simpa [step] using h
  | succ n ih =>
    intro c s hc h
    cases c with
    | cParse prec =>
      simp only [step]
      cases hpf : (rules (advance s).parser.previous.type).prefixFn with
      | none =>
        simp only [hpf]
        exact (error_nullCall _ _).trans ((advance_nullCall s).trans h)
      | some f =>
        simp only [hpf]
        exact ih (.cLoop prec) _ hc
          (ih (.cRun f) _ trivial ((advance_nullCall s).trans h))
    | cLoop prec =>
      simp only [step]
      split
      · rename_i hguard
        cases hif : (rules (advance s).parser.previous.type).infixFn with
        | none =>
          exfalso
          have hc1 : 1 ≤ prec := hc
          have hpos : PREC_NONE < (rules s.parser.current.type).precedence := by
            show 0 < (rules s.parser.current.type).precedence
            omega
          exact rules_pos_prec_infix_isSome _ hpos hif
        | some f =>
          simp only [hif]
          exact ih (.cLoop prec) _ hc
            (ih (.cRun f) _ trivial ((advance_nullCall s).trans h))
      · exact h
    | cRun f =>
      cases f with
      | fNumber => simp only [step]; exact (number_nullCall _).trans h
      | fLiteral => simp only [step]; exact (literal_nullCall _).trans h
      | fGrouping =>
        simp only [step]
        rw [consume_nullCall]
        exact ih (.cParse PREC_ASSIGN) _ (Nat.le_refl 1) h
      | fUnary =>
        simp only [step]
        split <;> (try rw [emitByte_nullCall]) <;>
          exact ih (.cParse PREC_UNARY) _ (show (1:Nat) ≤ 8 by omega) h
      | fBinary =>
        simp only [step]
        split <;> (try rw [emitByte_nullCall]) <;>
          exact ih (.cParse ((rules s.parser.previous.type).precedence + 1)) _
            (Nat.succ_le_succ (Nat.zero_le _)) h

/-- C10: in the parse-rule table every token type with precedence above
`PREC_NONE` has a non-null infix action, and therefore a `parsePrecedence`
call with threshold `PREC_ASSIGN` or higher never invokes a null infix
function pointer (the ghost `nullCall` flag, set exactly at the would-be
NULL invocation, stays false). -/
theorem rules_infix_total_no_null_dispatch
    (t : TokenType) (fuel prec : Nat) (s : CState)
    (ht : PREC_NONE < (rules t).precedence)
    (hprec : PREC_ASSIGN ≤ prec)
    (hs : s.nullCall = false) :
    (rules t).infixFn ≠ none ∧ (parsePrecedence fuel prec s).nullCall = false :=
  ⟨rules_pos_prec_infix_isSome t ht,
    step_nullCall_preserved fuel (.cParse prec) s hprec hs⟩

/-- C10, witness: instantiated at `TOKEN_PLUS`, threshold `PREC_ASSIGN`,
and the initial compiler state for a number-literal stream. -/
theorem rules_infix_total_no_null_dispatch_witness :
    (PREC_NONE < (rules .TOKEN_PLUS).precedence ∧ PREC_ASSIGN ≤ PREC_ASSIGN ∧
      baseCState.nullCall = false) ∧
    ((rules .TOKEN_PLUS).infixFn ≠ none ∧
      (parsePrecedence 32 PREC_ASSIGN baseCState).nullCall = false) :=
  ⟨⟨by decide, by decide, rfl⟩,
    rules_infix_total_no_null_dispatch .TOKEN_PLUS 32 PREC_ASSIGN baseCState
      (by decide) (by decide) rfl⟩

/-- C8: when inserting a constant would need an index greater than 255
(the pool already holds more than 255 values), `emitConstant` (via
`makeConstant`, `compiler.c` lines 110-119) reports "Too many constants in
one chunk." — recorded when the parser is not already in panic mode — and
emits the constant-load with placeholder index 0 instead of aborting, so
parsing continues. -/
theorem emitConstant_overflow_placeholder (v : Value) (s : CState)
    (hfull : 255 < s.chunk.constants.length)
    (hpanic : s.parser.panicMode = false) :
    (emitConstant v s).chunk.code = s.chunk.code ++ [OP_CONSTANT, 0] ∧
    (emitConstant v s).parser.hadError = true ∧
    ("Too many constants in one chunk.") ∈ (emitConstant v s).diagnostics := by
  have hc : (addConstant s.chunk v).snd > 255 := hfull
  have he : emitConstant v s
      = emitBytes OP_CONSTANT 0
          (error ("Too many constants in one chunk.")
            { s with chunk := (addConstant s.chunk v).fst }) := by
    simp [emitConstant, makeConstant, hc]
  rw [he]
  have herr : error ("Too many constants in one chunk.")
      { s with chunk := (addConstant s.chunk v).fst }
      = { parser := { s.parser with panicMode := true, hadError := true },
          tokens := s.tokens, chunk := (addConstant s.chunk v).fst,
          diagnostics := s.diagnostics ++ [("Too many constants in one chunk.")],
          nullCall := s.nullCall } := by
    simp [error, errorAt, hpanic]
  rw [herr]
  refine ⟨?_, rfl, ?_⟩
  · simp [emitBytes, emitByte, writeChunk, addConstant]
  · simp [emitBytes, emitByte, writeChunk]

set_option maxRecDepth 4096 in
/-- C8, witness: a state whose pool holds 256 constants triggers the
overflow report and the placeholder-indexed load. -/
theorem emitConstant_overflow_placeholder_witness :
    (255 < cstateFull.chunk.constants.length ∧
      cstateFull.parser.panicMode = false) ∧
    ((emitConstant (NUMBER_VAL 7) cstateFull).chunk.code
        = cstateFull.chunk.code ++ [OP_CONSTANT, 0] ∧
      (emitConstant (NUMBER_VAL 7) cstateFull).parser.hadError = true ∧
      ("Too many constants in one chunk.")
        ∈ (emitConstant (NUMBER_VAL 7) cstateFull).diagnostics) :=
  ⟨⟨by decide, rfl⟩,
    emitConstant_overflow_placeholder (NUMBER_VAL 7) cstateFull (by decide) rfl⟩

end Clox
